import Mathlib

/-!
Verification of the AO3 metadata scraper (`src/ao3_scraper.py`): a shallow
embedding of the record extractor `_parse_work_blurb`, the pagination driver
`search_fandom` (with an explicit wall clock for the rate limiter), and the
CSV sink `save_to_csv`.
-/

namespace AO3

/-- Field values stored in a record dictionary: strings or parsed integers. -/
inductive Value where
  | str (s : String)
  | nat (n : Nat)
deriving DecidableEq, Repr

/-- A record is a Python dict built by successive insertion: an ordered
association list from field name to value. -/
abbrev Record := List (String × Value)

/-- `title_elem.find('a')`: the link's stripped text and its optional `href`
attribute (`a['href']` raises `KeyError` when the attribute is absent). -/
structure Link where
  text : String
  href : Option String
deriving DecidableEq, Repr

/-- `work_element.find('h4', class_='heading')`: may or may not hold a link. -/
structure Heading where
  link : Option Link
deriving DecidableEq, Repr

/-- The `dl.stats` block: stripped texts of its `dd` children, when present. -/
structure Stats where
  language : Option String
  words : Option String
  chapters : Option String
  kudos : Option String
  bookmarks : Option String
  hits : Option String
deriving DecidableEq, Repr

/-- One result item (`li.work.blurb.group`): the outcome of every lookup that
`_parse_work_blurb` performs on the element. -/
structure WorkItem where
  heading : Option Heading
  author : Option String
  rating : Option String
  warnings : Option String
  category : Option String
  fandoms : Option String
  tags : List String
  relationships : List String
  characters : List String
  stats : Option Stats
  summary : Option String
deriving DecidableEq, Repr

/-- Python `text.replace(',', '')`: remove every comma character. -/
def stripCommas (s : String) : String :=
  ⟨s.data.filter (fun c => c ≠ ',')⟩

/-- Python `str.isdigit`: non-empty and every character a digit. -/
def isDigits (s : String) : Bool :=
  !s.data.isEmpty && s.data.all (fun c => c.isDigit)

/-- Python `int` applied to a digit string. -/
def digitsVal (s : String) : Nat :=
  s.data.foldl (fun n c => n * 10 + (c.toNat - '0'.toNat)) 0

/-- The stat parse `int(text.replace(',', '')) if ....isdigit() else 0`. -/
def parseStat (s : String) : Nat :=
  let t := stripCommas s
  if isDigits t then digitsVal t else 0

/-- Python `href.split('/')` acting on the character list. -/
def splitSlash : List Char → List (List Char)
  | [] => [[]]
  | c :: cs =>
    let r := splitSlash cs
    if c = '/' then [] :: r
    else
      match r with
      | [] => [[c]]
      | g :: gs => (c :: g) :: gs

/-- Python `href.split('/')[-1]`. -/
def lastSegment (s : String) : String :=
  ⟨(splitSlash s.data).getLastD []⟩

/-- Python `', '.join(...)`. -/
def joinComma (l : List String) : String :=
  String.intercalate ", " l

/-- Python slicing `s[:n]`. -/
def truncate (s : String) (n : Nat) : String :=
  ⟨s.data.take n⟩

/-- `AO3Scraper.SUMMARY_MAX_LENGTH`. -/
def SUMMARY_MAX_LENGTH : Nat := 200

/-- The record dict `_parse_work_blurb` builds once the title link and its
`href` are in hand, in Python insertion order.  When the `dl.stats` block is
absent, the six fields it owns are never inserted. -/
def mkRecord (w : WorkItem) (fandom : String) (lk : Link) (href : String) : Record :=
  [("fandom_searched", Value.str fandom),
   ("title", Value.str lk.text),
   ("work_id", Value.str (lastSegment href)),
   ("author", Value.str (w.author.getD "Anonymous")),
   ("rating", Value.str (w.rating.getD "Not Rated")),
   ("warnings", Value.str (w.warnings.getD "No Archive Warnings Apply")),
   ("category", Value.str (w.category.getD "N/A")),
   ("fandoms", Value.str (w.fandoms.getD fandom)),
   ("tags", Value.str (joinComma (w.tags.take 10))),
   ("relationships", Value.str (joinComma (w.relationships.take 5))),
   ("characters", Value.str (joinComma (w.characters.take 10)))]
  ++ (match w.stats with
      | none => []
      | some st =>
        [("language", Value.str (st.language.getD "English")),
         ("words", Value.nat (match st.words with
           | some s => parseStat s
           | none => 0)),
         ("chapters", Value.str (st.chapters.getD "1/1")),
         ("kudos", Value.nat (match st.kudos with
           | some s => parseStat s
           | none => 0)),
         ("bookmarks", Value.nat (match st.bookmarks with
           | some s => parseStat s
           | none => 0)),
         ("hits", Value.nat (match st.hits with
           | some s => parseStat s
           | none => 0))])
  ++ [("summary", Value.str (match w.summary with
       | some s => truncate s SUMMARY_MAX_LENGTH
       | none => ""))]

/-- `AO3Scraper._parse_work_blurb`: builds the record dict in insertion order.
Returns `none` when the title heading or its link is absent (the explicit
`return None`), and when the link has no `href`, in which case the Python
subscript raises `KeyError` and the per-item `except` returns `None`. -/
def parse_work_blurb (w : WorkItem) (fandom : String) : Option Record :=
  match w.heading with
  | none => none
  | some h =>
    match h.link with
    | none => none
    | some l =>
      match l.href with
      | none => none
      | some href => some (mkRecord w fandom l href)

/-- Dictionary lookup on a record. -/
def getVal (r : Record) (k : String) : Option Value :=
  (r.find? (fun p => p.1 == k)).map (fun p => p.2)

/-- Result of one `session.get` + `raise_for_status` call: the time from
dispatch to return (or raise), and the work items parsed from the page
(`none` models a raised `requests.RequestException`). -/
structure FetchOutcome where
  dur : ℤ
  items : Option (List WorkItem)

/-- State produced by one `search_fandom` loop: accumulated records, the pages
for which a request was dispatched, the dispatch instants, and the wall clock
at loop exit. -/
structure RunResult where
  works : List Record
  pages : List Nat
  dispatches : List ℤ
  clock : ℤ

/-- The `for page in range(1, max_pages + 1)` loop of
`AO3Scraper.search_fandom`, with an explicit wall clock: a successful fetch
parses its items and then sleeps `rate` seconds
(`time.sleep(self.rate_limit)`); a `RequestException` skips the sleep and
breaks out of the loop, keeping the records accumulated so far. -/
def searchPages (fetch : String → Nat → FetchOutcome) (rate : ℤ) (fandom : String) :
    Nat → Nat → ℤ → RunResult
  | _, 0, t => ⟨[], [], [], t⟩
  | page, fuel + 1, t =>
    let f := fetch fandom page
    match f.items with
    | none => ⟨[], [page], [t], t + f.dur⟩
    | some items =>
      let rest := searchPages fetch rate fandom (page + 1) fuel (t + f.dur + rate)
      ⟨items.filterMap (fun w => parse_work_blurb w fandom) ++ rest.works,
       page :: rest.pages, t :: rest.dispatches, rest.clock⟩

/-- `AO3Scraper.search_fandom`: the record list returned for one term. -/
def search_fandom (fetch : String → Nat → FetchOutcome) (rate : ℤ) (fandom : String)
    (max_pages : Nat) (t : ℤ) : List Record :=
  (searchPages fetch rate fandom 1 max_pages t).works

/-- The `for fandom in fandoms` loop of `main`: sequential `search_fandom`
calls sharing one wall clock; collects every request dispatch instant of the
whole scraping run. -/
def scrapeRun (fetch : String → Nat → FetchOutcome) (rate : ℤ) (max_pages : Nat) :
    List String → ℤ → List ℤ × ℤ
  | [], t => ([], t)
  | fandom :: rest, t =>
    let r := searchPages fetch rate fandom 1 max_pages t
    let tail := scrapeRun fetch rate max_pages rest r.clock
    (r.dispatches ++ tail.1, tail.2)

/-- Abstract CSV file content: the header row and the data rows. -/
abbrev CsvFile := List String × List (List Value)

/-- The row `csv.DictWriter` writes for one record: one cell per field name,
with the default `restval=''` for a missing key. -/
def csvRow (keys : List String) (r : Record) : List Value :=
  keys.map (fun k => (getVal r k).getD (Value.str ""))

/-- `csv.DictWriter.writerows` with the default `extrasaction='raise'`: rows
are written in order; a record carrying a key outside `fieldnames` raises
`ValueError` at that row, leaving the earlier rows already written and the
later ones unwritten.  Returns the rows actually written and `true` iff no
row raised. -/
def writerows (keys : List String) : List Record → List (List Value) × Bool
  | [] => ([], true)
  | r :: rs =>
    if r.all (fun p => keys.contains p.1) then
      let rest := writerows keys rs
      (csvRow keys r :: rest.1, rest.2)
    else ([], false)

/-- `AO3Scraper.save_to_csv` acting on a filesystem (path ↦ content): on an
empty list it prints `No data to save` and returns before any `open`;
otherwise `open(filename, 'w')` truncates the file, the header
`data[0].keys()` is written and then the rows `writerows` manages to produce
(the `with` block closes the file even when `writerows` raises mid-way).
The Boolean reports whether the call returned normally (`true`) or a
`ValueError` escaped it (`false`). -/
def save_to_csv (data : List Record) (filename : String)
    (fs : String → Option CsvFile) : (String → Option CsvFile) × Bool :=
  match data with
  | [] => (fs, true)
  | first :: _ =>
    let keys := first.map (fun p => p.1)
    let rows := writerows keys data
    (fun name => if name = filename then some (keys, rows.1) else fs name,
     rows.2)

/-- The fixed §3 field order of the data contract. -/
def FIELDNAMES : List String :=
  ["fandom_searched", "title", "work_id", "author", "rating", "warnings",
   "category", "fandoms", "tags", "relationships", "characters", "language",
   "words", "chapters", "kudos", "bookmarks", "hits", "summary"]

/-! Concrete fixtures used to instantiate the theorems. -/

/-- A title link with non-empty text and a numeric trailing href segment. -/
def lkMin : Link := { text := "T", href := some "/works/123" }

/-- Heading wrapping `lkMin`. -/
def hdMin : Heading := { link := some lkMin }

/-- A minimal well-formed item: title link only, no stats block. -/
def itemMin : WorkItem :=
  { heading := some hdMin, author := none, rating := none, warnings := none,
    category := none, fandoms := none, tags := [], relationships := [],
    characters := [], stats := none, summary := none }

/-- The record the extractor emits for `itemMin` under search term `f`. -/
def recMin : Record := (parse_work_blurb itemMin "f").getD []

/-- An item whose title link exists but has empty text and an href ending in
a slash, so the final segment is empty. -/
def itemEmptyTitle : WorkItem :=
  { heading := some { link := some { text := "", href := some "/works/" } },
    author := none, rating := none, warnings := none, category := none,
    fandoms := none, tags := [], relationships := [], characters := [],
    stats := none, summary := none }

/-- An item fragment with no title heading at all. -/
def itemNoHeading : WorkItem :=
  { heading := none, author := none, rating := none, warnings := none,
    category := none, fandoms := none, tags := [], relationships := [],
    characters := [], stats := none, summary := none }

/-- A stats block whose language and chapters elements are absent and whose
numeric texts exercise the lenient parse. -/
def stFull : Stats :=
  { language := none, words := some "1,234", chapters := none,
    kudos := some "56", bookmarks := some "n/a", hits := none }

/-- Title link of the full item. -/
def lkFull : Link := { text := "Story", href := some "/works/777" }

/-- Heading wrapping `lkFull`. -/
def hdFull : Heading := { link := some lkFull }

/-- An item with a stats block, over-long tag lists and no author. -/
def itemFull : WorkItem :=
  { heading := some hdFull, author := none, rating := none, warnings := none,
    category := none, fandoms := none,
    tags := ["a", "b", "c", "d", "e", "f", "g", "h", "i", "j", "k", "l"],
    relationships := ["r1", "r2", "r3", "r4", "r5", "r6"],
    characters := ["c1", "c2", "c3", "c4", "c5", "c6", "c7", "c8", "c9",
                   "c10", "c11"],
    stats := some stFull, summary := some "a short summary" }

/-- The record the extractor emits for `itemFull` under search term `f`. -/
def recFull : Record := (parse_work_blurb itemFull "f").getD []

/-- A fetch oracle whose every request fails instantly. -/
def cexFetchFail : String → Nat → FetchOutcome := fun _ _ => ⟨0, none⟩

/-- A fetch oracle whose every request succeeds after one second and returns
one minimal item. -/
def okFetch : String → Nat → FetchOutcome := fun _ _ => ⟨1, some [itemMin]⟩

/-- A fetch oracle succeeding on pages 1 and 2 and failing from page 3 on. -/
def failAt3Fetch : String → Nat → FetchOutcome :=
  fun _ p => if p < 3 then ⟨0, some [itemMin]⟩ else ⟨0, none⟩

/-- The per-page item lists delivered by `failAt3Fetch`. -/
def constItems : Nat → List WorkItem := fun _ => [itemMin]

/-! General lemmas about the embedded code, shared by the claim theorems. -/

theorem parse_work_blurb_some_elim (w : WorkItem) (fandom : String) (r : Record)
    (hparse : parse_work_blurb w fandom = some r) :
    ∃ hd lk href, w.heading = some hd ∧ hd.link = some lk ∧ lk.href = some href := by
  rcases hw : w.heading with _ | hd
  · simp [parse_work_blurb, hw] at hparse
  · rcases hl : hd.link with _ | lk
    · simp [parse_work_blurb, hw, hl] at hparse
    · rcases hh : lk.href with _ | href
      · simp [parse_work_blurb, hw, hl, hh] at hparse
      · exact ⟨hd, lk, href, rfl, hl, hh⟩

theorem parse_fandom_field (w : WorkItem) (fandom : String) (r : Record)
    (hparse : parse_work_blurb w fandom = some r) :
    getVal r "fandom_searched" = some (Value.str fandom) := by
  rcases parse_work_blurb_some_elim w fandom r hparse with ⟨hd, lk, href, hw, hl, hh⟩
  simp only [parse_work_blurb, hw, hl, hh, Option.some.injEq] at hparse
  subst hparse
  rfl

theorem searchPages_fail_spec (fetch : String → Nat → FetchOutcome) (rate : ℤ)
    (fandom : String) (itemsF : Nat → List WorkItem) (fuel : Nat) :
    ∀ start t p, start ≤ p → p < start + fuel →
      (fetch fandom p).items = none →
      (∀ q, start ≤ q → q < p → (fetch fandom q).items = some (itemsF q)) →
      (searchPages fetch rate fandom start fuel t).pages =
        List.range' start (p - start + 1) ∧
      (searchPages fetch rate fandom start fuel t).works =
        (List.range' start (p - start)).flatMap
          (fun q => (itemsF q).filterMap (fun w => parse_work_blurb w fandom)) := by
  induction fuel with
  | zero =>
    intro start t p h1 h2 _ _
    exact absurd h2 (by omega)
  | succ fuel ih =>
    intro start t p h1 h2 hfail hsucc
    rcases Nat.eq_or_lt_of_le h1 with heq | hlt
    · subst heq
      simp [searchPages, hfail, Nat.sub_self]
    · have hs := hsucc start le_rfl hlt
      have hrec := ih (start + 1) (t + (fetch fandom start).dur + rate) p hlt
        (by omega) hfail (fun q hq1 hq2 => hsucc q (by omega) hq2)
      have hps : p - start = (p - (start + 1)) + 1 := by omega
      constructor
      · simp only [searchPages, hs]
        rw [hrec.1, hps]
        simp [List.range'_succ]
      · simp only [searchPages, hs]
        rw [hrec.2, hps, List.range'_succ, List.flatMap_cons]

theorem mem_searchPages_works (fetch : String → Nat → FetchOutcome) (rate : ℤ)
    (fandom : String) (fuel : Nat) :
    ∀ start t r, r ∈ (searchPages fetch rate fandom start fuel t).works →
      ∃ w, parse_work_blurb w fandom = some r := by
  induction fuel with
  | zero =>
    intro start t r hr
    simp [searchPages] at hr
  | succ fuel ih =>
    intro start t r hr
    rcases hfi : (fetch fandom start).items with _ | items
    · simp [searchPages, hfi] at hr
    · simp only [searchPages, hfi, List.mem_append] at hr
      rcases hr with hr | hr
      · rcases List.mem_filterMap.mp hr with ⟨w, _, hw⟩
        exact ⟨w, hw⟩
      · exact ih (start + 1) _ r hr

theorem self_keys_contains (r : Record) :
    r.all (fun p => (r.map (fun q => q.1)).contains p.1) = true := by
  rw [List.all_eq_true]
  intro p hp
  simp only [List.contains, List.elem_eq_mem, decide_eq_true_eq]
  exact List.mem_map_of_mem _ hp

theorem writerows_all_ok (keys : List String) :
    ∀ data : List Record,
      (∀ r ∈ data, r.all (fun p => keys.contains p.1) = true) →
      writerows keys data = (data.map (fun r => csvRow keys r), true) := by
  intro data
  induction data with
  | nil => intro _; rfl
  | cons r rs ih =>
    intro h
    have hr := h r (List.mem_cons_self r rs)
    have hrs := ih (fun x hx => h x (List.mem_cons_of_mem r hx))
    simp only [writerows]
    rw [if_pos hr, hrs]
    rfl

theorem searchPages_dispatches_head (fetch : String → Nat → FetchOutcome)
    (rate : ℤ) (fandom : String) (fuel page : Nat) (t : ℤ) (hf : 0 < fuel) :
    ((searchPages fetch rate fandom page fuel t).dispatches).head? = some t := by
  rcases fuel with _ | fuel
  · exact absurd hf (by omega)
  · rcases hfi : (fetch fandom page).items with _ | items <;>
      simp [searchPages, hfi]

/-!
The claim theorems.  Each is stated over the embedded code above; concrete
witnesses instantiate the quantified ones.
-/

/-- C1, counterexample.  In a run over two search terms where the first term's
page-1 fetch fails instantly, the failing branch executes `break` without
`time.sleep`, so the next request (first page of the next term) is dispatched
at the same instant: the dispatch gap is 0 < 5 = rate_limit, refuting the
claim that a failed fetch still consumes one rate-limit interval before any
subsequent request. -/
theorem scrapeRun_gap_violation :
    (scrapeRun cexFetchFail 5 1 ["A", "B"] 0).1 = [0, 0] ∧
    ¬ List.Chain' (fun a b : ℤ => a + 5 ≤ b)
      (scrapeRun cexFetchFail 5 1 ["A", "B"] 0).1 := by
  constructor
  · decide
  · intro h
    have h0 : (scrapeRun cexFetchFail 5 1 ["A", "B"] 0).1 = [0, 0] := by decide
    rw [h0, List.chain'_cons] at h
    omega

/-- C1, amended.  Within one `search_fandom` call, any two consecutive request
dispatch instants are at least `rate` seconds apart (the sleep after each
successful fetch enforces the floor, and a failed fetch ends the loop); the
guarantee does not extend past a failed fetch to a later call of the run. -/
theorem search_fandom_gap_after_success (fetch : String → Nat → FetchOutcome)
    (rate : ℤ) (fandom : String) (fuel page : Nat) (t : ℤ)
    (hdur : ∀ f p, 0 ≤ (fetch f p).dur) :
    List.Chain' (fun a b : ℤ => a + rate ≤ b)
      (searchPages fetch rate fandom page fuel t).dispatches := by
  induction fuel generalizing page t with
  | zero => simp [searchPages]
  | succ fuel ih =>
    rcases hfi : (fetch fandom page).items with _ | items
    · simp [searchPages, hfi]
    · simp only [searchPages, hfi]
      rw [List.chain'_cons']
      refine ⟨?_, ih (page + 1) _⟩
      intro y hy
      rcases fuel with _ | fuel
      · simp [searchPages] at hy
      · rw [searchPages_dispatches_head fetch rate fandom (fuel + 1) (page + 1)
          (t + (fetch fandom page).dur + rate) (by omega)] at hy
        simp only [Option.mem_def, Option.some.injEq] at hy
        have := hdur fandom page
        omega

/-- C1, witness for the amended theorem: an oracle whose fetches each take one
second, `rate_limit = 5`, two pages: the dispatch instants are 5-separated. -/
theorem search_fandom_gap_after_success_witness :
    (∀ f p, 0 ≤ (okFetch f p).dur) ∧
    List.Chain' (fun a b : ℤ => a + 5 ≤ b)
      (searchPages okFetch 5 "f" 1 2 0).dispatches :=
  ⟨by intro f p; show (0 : ℤ) ≤ 1; decide,
   search_fandom_gap_after_success okFetch 5 "f" 2 1 0
     (by intro f p; show (0 : ℤ) ≤ 1; decide)⟩

/-- C2: with the first fetch failure at page `p ≤ max_pages` (and successes
before it), `search_fandom` dispatches exactly the requests for pages
`1, ..., p` in order — never more than `max_pages` — and returns the records
accumulated from the successful pages `1, ..., p-1`; the failure is absorbed
by the loop's `except` branch, so the call still returns a list. -/
theorem search_fandom_stops_on_first_failure
    (fetch : String → Nat → FetchOutcome) (rate : ℤ) (fandom : String) (t : ℤ)
    (max_pages p : Nat) (itemsF : Nat → List WorkItem)
    (hp1 : 1 ≤ p) (hpm : p ≤ max_pages)
    (hfail : (fetch fandom p).items = none)
    (hsucc : ∀ q, q < p → 1 ≤ q → (fetch fandom q).items = some (itemsF q)) :
    (searchPages fetch rate fandom 1 max_pages t).pages = List.range' 1 p ∧
    (searchPages fetch rate fandom 1 max_pages t).pages.length ≤ max_pages ∧
    search_fandom fetch rate fandom max_pages t =
      (List.range' 1 (p - 1)).flatMap
        (fun q => (itemsF q).filterMap (fun w => parse_work_blurb w fandom)) := by
  have h := searchPages_fail_spec fetch rate fandom itemsF max_pages 1 t p hp1
    (by omega) hfail (fun q hq1 hq2 => hsucc q hq2 hq1)
  have hp : p - 1 + 1 = p := by omega
  rw [hp] at h
  exact ⟨h.1, by rw [h.1]; simp; omega, h.2⟩

/-- C2, witness: the spec's driver scenario — `max_pages = 3`, success on
pages 1 and 2, failure on page 3: pages 1, 2, 3 are fetched and the records
of pages 1 and 2 are returned. -/
theorem search_fandom_stops_on_first_failure_witness :
    ((1 : Nat) ≤ 3 ∧ (3 : Nat) ≤ 3 ∧ (failAt3Fetch "f" 3).items = none ∧
      (∀ q, q < 3 → 1 ≤ q → (failAt3Fetch "f" q).items = some (constItems q))) ∧
    ((searchPages failAt3Fetch 5 "f" 1 3 0).pages = List.range' 1 3 ∧
      (searchPages failAt3Fetch 5 "f" 1 3 0).pages.length ≤ 3 ∧
      search_fandom failAt3Fetch 5 "f" 3 0 =
        (List.range' 1 (3 - 1)).flatMap
          (fun q => (constItems q).filterMap (fun w => parse_work_blurb w "f"))) :=
  ⟨⟨by decide, by decide, by decide, by decide⟩,
   search_fandom_stops_on_first_failure failAt3Fetch 5 "f" 0 3 3 constItems
     (by decide) (by decide) (by decide) (by decide)⟩

theorem truncate_length_le (s : String) (n : Nat) : (truncate s n).length ≤ n := by
  show (s.data.take n).length ≤ n
  exact List.length_take_le n s.data

/-- C3, counterexample.  An item whose heading link exists but has empty text
and an href ending in `/` is still turned into a record, with empty `title`
and empty `work_id`: `_parse_work_blurb` checks only that the elements exist,
not that the extracted strings are non-empty. -/
theorem parse_emits_empty_title :
    (parse_work_blurb itemEmptyTitle "f").isSome = true ∧
    getVal ((parse_work_blurb itemEmptyTitle "f").getD []) "title"
      = some (Value.str "") ∧
    getVal ((parse_work_blurb itemEmptyTitle "f").getD []) "work_id"
      = some (Value.str "") := by
  decide

/-- C3, amended: every emitted record's `title` equals the heading link's
stripped text and its `work_id` equals the final segment of the link's href;
both are non-empty exactly when those source strings are non-empty — the
extractor itself does not enforce non-emptiness. -/
theorem parse_title_from_link (w : WorkItem) (fandom : String) (r : Record)
    (hd : Heading) (lk : Link) (href : String)
    (hw : w.heading = some hd) (hl : hd.link = some lk)
    (hh : lk.href = some href)
    (hparse : parse_work_blurb w fandom = some r)
    (htext : lk.text ≠ "") (hseg : lastSegment href ≠ "") :
    getVal r "title" = some (Value.str lk.text) ∧ lk.text ≠ "" ∧
    getVal r "work_id" = some (Value.str (lastSegment href)) ∧
    lastSegment href ≠ "" := by
  simp only [parse_work_blurb, hw, hl, hh, Option.some.injEq] at hparse
  subst hparse
  exact ⟨rfl, htext, rfl, hseg⟩

/-- C3, witness for the amended theorem at a minimal concrete item. -/
theorem parse_title_from_link_witness :
    (itemMin.heading = some hdMin ∧ hdMin.link = some lkMin ∧
      lkMin.href = some "/works/123" ∧
      parse_work_blurb itemMin "f" = some recMin ∧
      lkMin.text ≠ "" ∧ lastSegment "/works/123" ≠ "") ∧
    (getVal recMin "title" = some (Value.str lkMin.text) ∧ lkMin.text ≠ "" ∧
      getVal recMin "work_id" = some (Value.str (lastSegment "/works/123")) ∧
      lastSegment "/works/123" ≠ "") :=
  ⟨⟨rfl, rfl, rfl, rfl, by decide, by decide⟩,
   parse_title_from_link itemMin "f" recMin hdMin lkMin "/works/123"
     rfl rfl rfl rfl (by decide) (by decide)⟩

/-- C4, counterexample.  When the `dl.stats` block is absent the record is
still emitted but the numeric keys are never inserted: no `0` default is
recorded, so the parsed value is not "always present in the record". -/
theorem parse_omits_numeric_fields :
    parse_work_blurb itemMin "f" = some recMin ∧
    getVal recMin "words" = none ∧ getVal recMin "kudos" = none ∧
    getVal recMin "bookmarks" = none ∧ getVal recMin "hits" = none := by
  decide

/-- C4, amended: when the stats block is present, each numeric field is parsed
by stripping commas and parsing digits — `"1,234"` gives `1234`, non-numeric
or missing text gives `0` — and is present in the record (as a `Nat`, hence
non-negative); when the whole stats block is absent the keys are omitted. -/
theorem parse_numeric_fields (w : WorkItem) (fandom : String) (r : Record)
    (hd : Heading) (lk : Link) (href : String) (st : Stats)
    (hw : w.heading = some hd) (hl : hd.link = some lk)
    (hh : lk.href = some href) (hst : w.stats = some st)
    (hparse : parse_work_blurb w fandom = some r) :
    getVal r "words" = some (Value.nat (match st.words with
      | some s => parseStat s
      | none => 0)) ∧
    getVal r "kudos" = some (Value.nat (match st.kudos with
      | some s => parseStat s
      | none => 0)) ∧
    getVal r "bookmarks" = some (Value.nat (match st.bookmarks with
      | some s => parseStat s
      | none => 0)) ∧
    getVal r "hits" = some (Value.nat (match st.hits with
      | some s => parseStat s
      | none => 0)) ∧
    parseStat "1,234" = 1234 ∧ parseStat "n/a" = 0 ∧ parseStat "" = 0 := by
  simp only [parse_work_blurb, hw, hl, hh, Option.some.injEq] at hparse
  subst hparse
  simp only [mkRecord, hst]
  exact ⟨rfl, rfl, rfl, rfl, by decide, by decide, by decide⟩

/-- C4, witness for the amended theorem: a stats block with `words = "1,234"`,
`kudos = "56"`, non-numeric `bookmarks` and missing `hits`. -/
theorem parse_numeric_fields_witness :
    (itemFull.heading = some hdFull ∧ hdFull.link = some lkFull ∧
      lkFull.href = some "/works/777" ∧ itemFull.stats = some stFull ∧
      parse_work_blurb itemFull "f" = some recFull) ∧
    (getVal recFull "words" = some (Value.nat (match stFull.words with
       | some s => parseStat s
       | none => 0)) ∧
     getVal recFull "kudos" = some (Value.nat (match stFull.kudos with
       | some s => parseStat s
       | none => 0)) ∧
     getVal recFull "bookmarks" = some (Value.nat (match stFull.bookmarks with
       | some s => parseStat s
       | none => 0)) ∧
     getVal recFull "hits" = some (Value.nat (match stFull.hits with
       | some s => parseStat s
       | none => 0)) ∧
     parseStat "1,234" = 1234 ∧ parseStat "n/a" = 0 ∧ parseStat "" = 0) :=
  ⟨⟨rfl, rfl, rfl, rfl, rfl⟩,
   parse_numeric_fields itemFull "f" recFull hdFull lkFull "/works/777" stFull
     rfl rfl rfl rfl rfl⟩

/-- C5: every emitted record joins the first at most 10 tags, at most 5
relationships and at most 10 characters, in source order (the `take` keeps
the original order), and carries a summary of at most 200 characters. -/
theorem parse_caps_lists (w : WorkItem) (fandom : String) (r : Record)
    (hd : Heading) (lk : Link) (href : String)
    (hw : w.heading = some hd) (hl : hd.link = some lk)
    (hh : lk.href = some href)
    (hparse : parse_work_blurb w fandom = some r) :
    getVal r "tags" = some (Value.str (joinComma (w.tags.take 10))) ∧
    (w.tags.take 10).length ≤ 10 ∧
    getVal r "relationships"
      = some (Value.str (joinComma (w.relationships.take 5))) ∧
    (w.relationships.take 5).length ≤ 5 ∧
    getVal r "characters" = some (Value.str (joinComma (w.characters.take 10))) ∧
    (w.characters.take 10).length ≤ 10 ∧
    ∃ s, getVal r "summary" = some (Value.str s) ∧
      s.length ≤ SUMMARY_MAX_LENGTH := by
  simp only [parse_work_blurb, hw, hl, hh, Option.some.injEq] at hparse
  subst hparse
  refine ⟨rfl, List.length_take_le _ _, rfl, List.length_take_le _ _, rfl,
    List.length_take_le _ _, ?_⟩
  rcases hst : w.stats with _ | st <;>
    rcases hsum : w.summary with _ | s₀ <;>
      simp only [mkRecord, hst, hsum] <;>
      first
        | exact ⟨"", rfl, by decide⟩
        | exact ⟨truncate s₀ SUMMARY_MAX_LENGTH, rfl, truncate_length_le s₀ _⟩

/-- C5, witness: an item with 12 tags, 6 relationships and 11 characters. -/
theorem parse_caps_lists_witness :
    (itemFull.heading = some hdFull ∧ hdFull.link = some lkFull ∧
      lkFull.href = some "/works/777" ∧
      parse_work_blurb itemFull "f" = some recFull) ∧
    (getVal recFull "tags" = some (Value.str (joinComma (itemFull.tags.take 10))) ∧
     (itemFull.tags.take 10).length ≤ 10 ∧
     getVal recFull "relationships"
       = some (Value.str (joinComma (itemFull.relationships.take 5))) ∧
     (itemFull.relationships.take 5).length ≤ 5 ∧
     getVal recFull "characters"
       = some (Value.str (joinComma (itemFull.characters.take 10))) ∧
     (itemFull.characters.take 10).length ≤ 10 ∧
     ∃ s, getVal recFull "summary" = some (Value.str s) ∧
       s.length ≤ SUMMARY_MAX_LENGTH) :=
  ⟨⟨rfl, rfl, rfl, rfl⟩,
   parse_caps_lists itemFull "f" recFull hdFull lkFull "/works/777"
     rfl rfl rfl rfl⟩

/-- C6, counterexample.  When the whole `dl.stats` block is absent, the
`language` and `chapters` keys are never inserted at all: the record does not
carry the defaults `"English"` and `"1/1"` for these absent fields. -/
theorem parse_omits_language_chapters :
    parse_work_blurb itemMin "f" = some recMin ∧
    getVal recMin "language" = none ∧ getVal recMin "chapters" = none := by
  decide

/-- C6, amended: `author` defaults to `"Anonymous"` whenever absent; when the
stats block is present, an absent language element defaults to `"English"`
and an absent chapters element to `"1/1"`; when the whole stats block is
absent, `language` and `chapters` are omitted from the record. -/
theorem parse_optional_defaults (w : WorkItem) (fandom : String) (r : Record)
    (hd : Heading) (lk : Link) (href : String) (st : Stats)
    (hw : w.heading = some hd) (hl : hd.link = some lk)
    (hh : lk.href = some href) (hst : w.stats = some st)
    (hauthor : w.author = none) (hlang : st.language = none)
    (hchap : st.chapters = none)
    (hparse : parse_work_blurb w fandom = some r) :
    getVal r "author" = some (Value.str "Anonymous") ∧
    getVal r "language" = some (Value.str "English") ∧
    getVal r "chapters" = some (Value.str "1/1") := by
  simp only [parse_work_blurb, hw, hl, hh, Option.some.injEq] at hparse
  subst hparse
  simp only [mkRecord, hst, hauthor, hlang, hchap]
  exact ⟨rfl, rfl, rfl⟩

/-- C6, witness for the amended theorem: an item with no author, a stats
block with no language and no chapters elements. -/
theorem parse_optional_defaults_witness :
    (itemFull.heading = some hdFull ∧ hdFull.link = some lkFull ∧
      lkFull.href = some "/works/777" ∧ itemFull.stats = some stFull ∧
      itemFull.author = none ∧ stFull.language = none ∧
      stFull.chapters = none ∧
      parse_work_blurb itemFull "f" = some recFull) ∧
    (getVal recFull "author" = some (Value.str "Anonymous") ∧
     getVal recFull "language" = some (Value.str "English") ∧
     getVal recFull "chapters" = some (Value.str "1/1")) :=
  ⟨⟨rfl, rfl, rfl, rfl, rfl, rfl, rfl, rfl⟩,
   parse_optional_defaults itemFull "f" recFull hdFull lkFull "/works/777"
     stFull rfl rfl rfl rfl rfl rfl rfl rfl⟩

/-- C7: an item with no locatable title link — heading absent, link absent,
or link without href (where the Python subscript raises and the item-level
handler catches) — yields no record, and inserting such an item anywhere in
a page leaves the extracted record list unchanged. -/
theorem parse_skips_malformed (w : WorkItem) (fandom : String)
    (items1 items2 : List WorkItem)
    (h : w.heading = none ∨ (∃ hd, w.heading = some hd ∧ hd.link = none) ∨
      (∃ hd lk, w.heading = some hd ∧ hd.link = some lk ∧ lk.href = none)) :
    parse_work_blurb w fandom = none ∧
    (items1 ++ w :: items2).filterMap (fun x => parse_work_blurb x fandom) =
      (items1 ++ items2).filterMap (fun x => parse_work_blurb x fandom) := by
  have hnone : parse_work_blurb w fandom = none := by
    rcases h with h | ⟨hd, hw, hl⟩ | ⟨hd, lk, hw, hl, hh⟩
    · simp [parse_work_blurb, h]
    · simp [parse_work_blurb, hw, hl]
    · simp [parse_work_blurb, hw, hl, hh]
  exact ⟨hnone, by simp [List.filterMap_append, List.filterMap_cons, hnone]⟩

/-- C7, witness: a fragment with no heading, inserted before a good item. -/
theorem parse_skips_malformed_witness :
    (itemNoHeading.heading = none ∨
      (∃ hd, itemNoHeading.heading = some hd ∧ hd.link = none) ∨
      (∃ hd lk, itemNoHeading.heading = some hd ∧ hd.link = some lk ∧
        lk.href = none)) ∧
    (parse_work_blurb itemNoHeading "f" = none ∧
      ([] ++ itemNoHeading :: [itemMin]).filterMap
          (fun x => parse_work_blurb x "f") =
        ([] ++ [itemMin]).filterMap (fun x => parse_work_blurb x "f")) :=
  ⟨Or.inl rfl,
   parse_skips_malformed itemNoHeading "f" [] [itemMin] (Or.inl rfl)⟩

/-- C8, counterexample.  `save_to_csv` writes as header `data[0].keys()`; for
a first record extracted from an item without a stats block that key list has
only 12 fields, so the header is not the fixed 18-field set of the contract.
Moreover, with that stats-less record first and a stats-bearing record after
it, `csv.DictWriter` (default `extrasaction='raise'`) raises `ValueError` on
the second row: the call does not return normally and the file holds one row
for two records, refuting "exactly one row per record". -/
theorem save_to_csv_header_cex :
    parse_work_blurb itemMin "f" = some recMin ∧
    parse_work_blurb itemFull "f" = some recFull ∧
    ((save_to_csv [recMin] "out.csv" (fun _ => none)).1 "out.csv").map
        (fun c => c.1) = some (recMin.map (fun p => p.1)) ∧
    recMin.map (fun p => p.1) ≠ FIELDNAMES ∧
    (save_to_csv [recMin, recFull] "out.csv" (fun _ => none)).2 = false ∧
    ((save_to_csv [recMin, recFull] "out.csv" (fun _ => none)).1 "out.csv").map
        (fun c => c.2.length) = some 1 := by
  decide

/-- C8, amended: the CSV header is the key list of the first record in
insertion order, which equals the fixed §3 field order exactly when that
record came from an item whose stats block is present.  Provided every
record's keys lie within that header (as holds when all records carry a
stats block), the write completes normally with exactly one row per record
in order; a record with keys outside the header instead makes `DictWriter`
raise `ValueError` mid-write (see the counterexample).  Given zero records
the sink reports and returns normally, without raising and without
writing. -/
theorem save_to_csv_header_rows (w : WorkItem) (fandom : String) (r : Record)
    (hd : Heading) (lk : Link) (href : String) (st : Stats)
    (rest : List Record) (fn : String) (fs : String → Option CsvFile)
    (hw : w.heading = some hd) (hl : hd.link = some lk)
    (hh : lk.href = some href) (hst : w.stats = some st)
    (hparse : parse_work_blurb w fandom = some r)
    (hrest : ∀ x ∈ rest, x.all (fun p => FIELDNAMES.contains p.1) = true) :
    r.map (fun p => p.1) = FIELDNAMES ∧
    (save_to_csv (r :: rest) fn fs).2 = true ∧
    (save_to_csv (r :: rest) fn fs).1 fn
      = some (FIELDNAMES, (r :: rest).map (fun x => csvRow FIELDNAMES x)) ∧
    ((r :: rest).map (fun x => csvRow FIELDNAMES x)).length
      = (r :: rest).length ∧
    save_to_csv [] fn fs = (fs, true) := by
  have hkeys : r.map (fun p => p.1) = FIELDNAMES := by
    simp only [parse_work_blurb, hw, hl, hh, Option.some.injEq] at hparse
    subst hparse
    simp only [mkRecord, hst]
    rfl
  have hall : ∀ x ∈ r :: rest, x.all (fun p => FIELDNAMES.contains p.1) = true := by
    intro x hx
    rcases List.mem_cons.mp hx with hx | hx
    · subst hx
      rw [← hkeys]
      exact self_keys_contains x
    · exact hrest x hx
  have hwr := writerows_all_ok FIELDNAMES (r :: rest) hall
  refine ⟨hkeys, ?_, ?_, by simp, rfl⟩
  · simp [save_to_csv, hkeys, hwr]
  · simp [save_to_csv, hkeys, hwr]

/-- C8, witness for the amended theorem: two stats-bearing records written to
an empty filesystem. -/
theorem save_to_csv_header_rows_witness :
    (itemFull.heading = some hdFull ∧ hdFull.link = some lkFull ∧
      lkFull.href = some "/works/777" ∧ itemFull.stats = some stFull ∧
      parse_work_blurb itemFull "f" = some recFull ∧
      (∀ x ∈ [recFull], x.all (fun p => FIELDNAMES.contains p.1) = true)) ∧
    (recFull.map (fun p => p.1) = FIELDNAMES ∧
     (save_to_csv (recFull :: [recFull]) "out.csv" (fun _ => none)).2 = true ∧
     (save_to_csv (recFull :: [recFull]) "out.csv" (fun _ => none)).1 "out.csv"
       = some (FIELDNAMES,
           (recFull :: [recFull]).map (fun x => csvRow FIELDNAMES x)) ∧
     ((recFull :: [recFull]).map (fun x => csvRow FIELDNAMES x)).length
       = (recFull :: [recFull]).length ∧
     save_to_csv [] "out.csv" (fun _ => none) = ((fun _ => none), true)) :=
  ⟨⟨rfl, rfl, rfl, rfl, rfl, by decide⟩,
   save_to_csv_header_rows itemFull "f" recFull hdFull lkFull "/works/777"
     stFull [recFull] "out.csv" (fun _ => none) rfl rfl rfl rfl rfl
     (by decide)⟩

/-- C9, counterexample.  The extractor itself stamps `fandom_searched`: its
output contains the field and varies with the term argument, refuting "set by
the driver, never by the extractor". -/
theorem extractor_stamps_fandom :
    parse_work_blurb itemMin "A" ≠ parse_work_blurb itemMin "B" ∧
    getVal ((parse_work_blurb itemMin "A").getD []) "fandom_searched"
      = some (Value.str "A") := by
  decide

/-- C9, amended: `fandom_searched` is stamped on each record by the extractor
from the term the driver passes down; every record returned by one
`search_fandom` call carries the same value, equal to that call's term. -/
theorem search_fandom_fandom_searched (fetch : String → Nat → FetchOutcome)
    (rate : ℤ) (fandom : String) (max_pages : Nat) (t : ℤ) (r : Record)
    (hr : r ∈ search_fandom fetch rate fandom max_pages t) :
    getVal r "fandom_searched" = some (Value.str fandom) := by
  rcases mem_searchPages_works fetch rate fandom max_pages 1 t r hr with ⟨w, hw⟩
  exact parse_fandom_field w fandom r hw

/-- C9, witness for the amended theorem: a one-page run returning one
record. -/
theorem search_fandom_fandom_searched_witness :
    recMin ∈ search_fandom okFetch 5 "f" 1 0 ∧
    getVal recMin "fandom_searched" = some (Value.str "f") :=
  ⟨by decide,
   search_fandom_fandom_searched okFetch 5 "f" 1 0 recMin (by decide)⟩

/-- C10: given an empty record list, `save_to_csv` takes the early-return
branch before any `open`: it terminates normally (the no-exception flag is
`true`) and the filesystem is returned unchanged — no file is created,
opened or truncated. -/
theorem save_to_csv_empty_noop (fn : String) (fs : String → Option CsvFile) :
    save_to_csv [] fn fs = (fs, true) :=
  rfl

end AO3
